import Mathlib

/-!
Shallow embedding of the AGCCE plan-governance pipeline
(repository: Generador-proyectos-determinista, directory scripts/).

Each section embeds one Python module.  Python dicts of strings are
modelled as association lists (`Dict`), Python `dict.get(k, d)` as
`dictGet`, assignment `d[k] = v` as `dictSet`.  Ambient effects
(current time, hostname, the HMAC-SHA256 digest, JSON serialisation,
and the network) are passed in explicitly as parameters, so every
definition is a pure, executable function of its inputs.
-/

namespace AGCCE

/-- Association list standing for a Python `dict` with string keys and
string values. -/
abbrev Dict := List (String × String)

/-- `d.get(k, dflt)` on a Python dict. -/
def dictGet (d : Dict) (k dflt : String) : String :=
  match d.find? (fun kv => kv.1 == k) with
  | some kv => kv.2
  | none => dflt

/-- `k in d` on a Python dict. -/
def dictHas (d : Dict) (k : String) : Bool :=
  (d.find? (fun kv => kv.1 == k)).isSome

/-- `d[k] = v` on a Python dict: replaces the value when the key is
present, otherwise appends the pair (Python dicts preserve insertion
order). -/
def dictSet (d : Dict) (k v : String) : Dict :=
  match d with
  | [] => [(k, v)]
  | kv :: rest => if kv.1 == k then (k, v) :: rest else kv :: dictSet rest k v

/-- Substring test on character lists: `needle` occurs contiguously in
the list. -/
def listInfix (needle : List Char) : List Char → Bool
  | [] => needle.isEmpty
  | c :: rest => needle.isPrefixOf (c :: rest) || listInfix needle rest

/-- Python `needle in hay` on strings (contiguous substring test). -/
def strContains (hay needle : String) : Bool :=
  listInfix needle.toList hay.toList

/-- Python `s.startswith(pre)`. -/
def strStartsWith (s pre : String) : Bool :=
  pre.toList.isPrefixOf s.toList

/-- Python `s.lower()` (character-wise lowercasing). -/
def strLower (s : String) : String :=
  String.mk (s.toList.map Char.toLower)

/-!
## scripts/validate_plan.py

A plan file is a JSON object; the validator reads its fields with
`.get`, so the embedding keeps every field optional exactly where the
source tolerates absence.  A `Step` mirrors one element of the
`steps` array; `script` keeps `Option String` because the source tests
it with truthiness (`not step.get('script')`), under which a present
empty string counts as missing.
-/

/-- One element of a plan's `steps` array, with the fields the
validator, the HITL gate and the orchestrator read. -/
structure Step where
  id : Option String
  action : Option String
  target : Option String
  depends_on : List String
  hitl_required : Bool
  script : Option String
deriving DecidableEq

/-- A parsed plan JSON object.  Fields the validator only tests for
presence are booleans; `plan_id` and `steps` carry their values. -/
structure Plan where
  plan_id : Option String
  hasVersion : Bool
  hasCreatedAt : Bool
  hasObjective : Bool
  steps : Option (List Step)
  hasPreFlight : Bool
  hasVerification : Bool
  hasEvidence : Bool
deriving DecidableEq

/-- Structured rendering of the validator's error strings; each
constructor carries the data interpolated into the message. -/
inductive VErr where
  | missingField (name : String)
  | badPlanId (pid : String)
  | noSteps
  | badStepId (pos : Nat) (sid : String)
  | dupId (sid : String)
  | missingAction (sid : String)
  | invalidAction (sid action : String)
  | missingTarget (sid : String)
  | hitlMissing (sid action : String)
  | depNotFound (sid : Option String) (dep : String)
  | circularDep (sid : Option String)
  | dockerScriptMissing (sid : Option String) (action : String)
deriving DecidableEq

/-- Structured rendering of the validator's warning strings. -/
inductive VWarn where
  | noPreFlight
  | noVerification
  | noEvidence
deriving DecidableEq

/-- `validate_required_fields`: the five required top-level fields. -/
def validate_required_fields (plan : Plan) : List VErr :=
  (if plan.plan_id.isNone then [VErr.missingField "plan_id"] else []) ++
  (if plan.hasVersion then [] else [VErr.missingField "version"]) ++
  (if plan.hasCreatedAt then [] else [VErr.missingField "created_at"]) ++
  (if plan.hasObjective then [] else [VErr.missingField "objective"]) ++
  (if plan.steps.isNone then [VErr.missingField "steps"] else [])

/-- The regex `^PLAN-[A-Z0-9]{8}$` of `validate_plan_id`. -/
def planIdOk (s : String) : Bool :=
  match s.toList with
  | 'P' :: 'L' :: 'A' :: 'N' :: '-' :: rest =>
      rest.length == 8 && rest.all (fun c => c.isUpper || c.isDigit)
  | _ => false

/-- `validate_plan_id`: checks `plan.get('plan_id', '')` against the
`PLAN-XXXXXXXX` format. -/
def validate_plan_id (plan : Plan) : List VErr :=
  let pid := plan.plan_id.getD ""
  if planIdOk pid then [] else [VErr.badPlanId pid]

/-- The regex `^S[0-9]{2}$` for step ids. -/
def stepIdOk (s : String) : Bool :=
  match s.toList with
  | ['S', a, b] => a.isDigit && b.isDigit
  | _ => false

/-- The action whitelist `valid_actions` of `validate_steps`. -/
def validActions : List String :=
  ["read_file", "write_file", "delete_file", "run_command",
   "docker_compose_up", "docker_run_tests", "docker_fetch_logs",
   "lint_check", "type_check", "snyk_scan", "git_commit"]

/-- Body of the `for i, step in enumerate(steps)` loop of
`validate_steps`; `seen` carries the ids added so far, `i` the
zero-based position. -/
def validateStepsGo : List Step → Nat → List String → List VErr
  | [], _, _ => []
  | s :: rest, i, seen =>
      let sid := s.id.getD ""
      (if stepIdOk sid then [] else [VErr.badStepId (i + 1) sid]) ++
      (if sid ∈ seen then [VErr.dupId sid] else []) ++
      (match s.action with
       | none => [VErr.missingAction sid]
       | some a => if a ∈ validActions then [] else [VErr.invalidAction sid a]) ++
      (if s.target.isNone then [VErr.missingTarget sid] else []) ++
      (match s.action with
       | some a =>
           if (a == "write_file" || a == "delete_file") && !s.hitl_required then
             [VErr.hitlMissing sid a]
           else []
       | none => []) ++
      validateStepsGo rest (i + 1) (sid :: seen)

/-- `validate_steps`: structure and uniqueness of steps; note the HITL
check fires only for `write_file` and `delete_file`. -/
def validate_steps (plan : Plan) : List VErr :=
  let steps := plan.steps.getD []
  if steps.isEmpty then [VErr.noSteps]
  else validateStepsGo steps 0 []

/-- `has_cycle` of `validate_dependencies`, with the mutated Python
sets `visited` and `rec_stack` threaded explicitly and a fuel argument
bounding the recursion depth (the source's recursion adds a fresh node
to `visited` on every nested call, so depth is bounded by the number
of distinct node keys; callers pass ample fuel). -/
def hasCycle (steps : List Step) :
    Nat → Option String → List (Option String) → List (Option String) →
    Bool × List (Option String) × List (Option String)
  | 0, _, visited, recStack => (false, visited, recStack)
  | fuel + 1, key, visited, recStack =>
      let visited := key :: visited
      let recStack := key :: recStack
      let afterDeps :=
        match steps.find? (fun s => s.id == key) with
        | none => (false, visited, recStack)
        | some s =>
            s.depends_on.foldl
              (fun acc d =>
                if acc.1 then acc
                else if some d ∉ acc.2.1 then
                  hasCycle steps fuel (some d) acc.2.1 acc.2.2
                else if some d ∈ acc.2.2 then (true, acc.2.1, acc.2.2)
                else acc)
              (false, visited, recStack)
      if afterDeps.1 then afterDeps
      else (false, afterDeps.2.1, afterDeps.2.2.erase key)

/-- The `for step in steps` loop that launches `has_cycle` on each not
yet visited step id; `visited` persists across the launches as in the
source. -/
def cycleScan (steps : List Step) (fuel : Nat) :
    List Step → List (Option String) → List VErr
  | [], _ => []
  | s :: rest, visited =>
      if s.id ∈ visited then cycleScan steps fuel rest visited
      else
        let r := hasCycle steps fuel s.id visited []
        (if r.1 then [VErr.circularDep s.id] else []) ++
        cycleScan steps fuel rest r.2.1

/-- Fuel that dominates the recursion depth of `has_cycle`: every
nested call consumes one unvisited key, and keys come from step ids
and dependency names only. -/
def cycleFuel (steps : List Step) : Nat :=
  steps.length + (steps.map (fun s => s.depends_on.length)).sum + 1

/-- `validate_dependencies`: unknown dependency targets, then cycle
detection by depth-first traversal. -/
def validate_dependencies (plan : Plan) : List VErr :=
  let steps := plan.steps.getD []
  let stepIds := steps.map (fun s => s.id)
  let missing :=
    steps.flatMap (fun s =>
      (s.depends_on.filter (fun d => some d ∉ stepIds)).map
        (fun d => VErr.depNotFound s.id d))
  missing ++ cycleScan steps (cycleFuel steps) steps []

/-- The Docker action list of `validate_docker_mapping`. -/
def dockerActions : List String :=
  ["docker_compose_up", "docker_run_tests", "docker_fetch_logs"]

/-- Truthiness of `step.get('script')`: present and non-empty. -/
def scriptPresent (s : Step) : Bool :=
  match s.script with
  | some t => t != ""
  | none => false

/-- `validate_docker_mapping`: Docker actions must carry a `script`. -/
def validate_docker_mapping (plan : Plan) : List VErr :=
  (plan.steps.getD []).flatMap (fun s =>
    match s.action with
    | some a =>
        if a ∈ dockerActions && !scriptPresent s then
          [VErr.dockerScriptMissing s.id a]
        else []
    | none => [])

/-- Result of `run_validation` on an already parsed plan. -/
structure ValidationResult where
  success : Bool
  errors : List VErr
  warnings : List VWarn
deriving DecidableEq

/-- `run_validation` on a parsed plan: all five validators in source
order; success iff no errors. -/
def run_validation (plan : Plan) : ValidationResult :=
  let errors :=
    validate_required_fields plan ++ validate_plan_id plan ++
    validate_steps plan ++ validate_dependencies plan ++
    validate_docker_mapping plan
  let warnings :=
    (if plan.hasPreFlight then [] else [VWarn.noPreFlight]) ++
    (if plan.hasVerification then [] else [VWarn.noVerification]) ++
    (if plan.hasEvidence then [] else [VWarn.noEvidence])
  ⟨errors.isEmpty, errors, warnings⟩

/-- The mutating-action set named by the design document:
write, delete and commit. -/
def mutatingSpec : List String := ["write_file", "delete_file", "git_commit"]

/-- The design document's invariant, stated over a plan: every step
whose action is in the mutating set has `hitl_required = true`. -/
def hitlInvariantSpec (plan : Plan) : Bool :=
  (plan.steps.getD []).all (fun s =>
    match s.action with
    | some a => if a ∈ mutatingSpec then s.hitl_required else true
    | none => true)

/-!
## scripts/hitl_gate.py

The approval store `.hitl_approvals.json` maps plan id to step id to a
decision record.  Timestamps are modelled as integer seconds (the
source stores ISO strings and compares elapsed `total_seconds()`); a
record written by `reject_step` has no `approved_at` field, which makes
`datetime.fromisoformat` raise in `check_step_approval` and land in the
`except` branch, so `approved_at` is an `Option`.
-/

/-- One record of the approval store, as written by `approve_step`
(fields `approved`, `approved_at`, `approved_by`) or `reject_step`
(fields `approved`, `rejected_at`, `reason`). -/
structure ApprovalRecord where
  approved : Bool
  approved_at : Option Int
  approved_by : Option String
  rejected_at : Option Int
  reason : Option String
deriving DecidableEq

/-- The approval store: plan id to step id to record. -/
abbrev Approvals := List (String × List (String × ApprovalRecord))

/-- `approvals["approvals"].get(plan_id, {}).get(step_id)`. -/
def approvalsLookup (a : Approvals) (pid sid : String) : Option ApprovalRecord :=
  match a.find? (fun p => p.1 == pid) with
  | none => none
  | some p => (p.2.find? (fun q => q.1 == sid)).map (fun q => q.2)

/-- `m[step_id] = rec` on the inner per-plan dict. -/
def approvalsSetInner (m : List (String × ApprovalRecord)) (sid : String)
    (rec : ApprovalRecord) : List (String × ApprovalRecord) :=
  match m with
  | [] => [(sid, rec)]
  | q :: qs =>
      if q.1 == sid then (q.1, rec) :: qs
      else q :: approvalsSetInner qs sid rec

/-- `approvals["approvals"][plan_id][step_id] = rec`, creating the plan
entry when absent; an existing record for the pair is overwritten. -/
def approvalsSet (a : Approvals) (pid sid : String) (rec : ApprovalRecord) :
    Approvals :=
  match a with
  | [] => [(pid, [(sid, rec)])]
  | p :: rest =>
      if p.1 == pid then (p.1, approvalsSetInner p.2 sid rec) :: rest
      else p :: approvalsSet rest pid sid rec

/-- `check_step_approval`: false when no record exists, when the record
has no parseable `approved_at`, or when more than 24 hours (86400
seconds) have elapsed since approval; otherwise the stored `approved`
flag. -/
def check_step_approval (now : Int) (a : Approvals) (pid sid : String) : Bool :=
  match approvalsLookup a pid sid with
  | none => false
  | some rec =>
      match rec.approved_at with
      | none => false
      | some t => if now - t > 86400 then false else rec.approved

/-- `approve_step`: writes `{approved: true, approved_at, approved_by}`
for the pair, replacing any existing record. -/
def approve_step (a : Approvals) (pid sid user : String) (now : Int) :
    Approvals :=
  approvalsSet a pid sid ⟨true, some now, some user, none, none⟩

/-- `reject_step`: writes `{approved: false, rejected_at, reason}` for
the pair, replacing any existing record. -/
def reject_step (a : Approvals) (pid sid reason : String) (now : Int) :
    Approvals :=
  approvalsSet a pid sid ⟨false, none, none, some now, some reason⟩

/-!
## scripts/audit_trail.py

`_generate_checksum` (HMAC-SHA256 truncated to 16 hex digits) and the
`json.dumps(entry, sort_keys=True)` serialisation are ambient,
deterministic functions of their input; the embedding abstracts them as
parameters `chash` and `ser`.  `verify_integrity` pops the two hash
fields and re-serialises the remaining dict, which restores exactly the
dict that `log` serialised, so both sides apply `ser` to the same
`EntryContent`.
-/

/-- The fields of an audit entry except the two hash fields — exactly
the dict that `log` serialises before adding `entry_hash` and
`checksum`. -/
structure EntryContent where
  timestamp : String
  event_type : String
  event_description : String
  actor : String
  severity : String
  details : String
  previous_hash : String
  hostname : String
  sequence : Nat
deriving DecidableEq

/-- One line of `logs/audit_trail.jsonl`. -/
structure AuditEntry where
  content : EntryContent
  entry_hash : String
  checksum : String
deriving DecidableEq

/-- The `EVENT_TYPES` table of `AuditTrail`. -/
def auditEventTypes : Dict :=
  [("plan_created", "Plan creado"),
   ("plan_approved", "Plan aprobado por HITL"),
   ("plan_rejected", "Plan rechazado por HITL"),
   ("plan_executed", "Plan ejecutado"),
   ("step_executed", "Paso ejecutado"),
   ("file_modified", "Archivo modificado"),
   ("file_created", "Archivo creado"),
   ("file_deleted", "Archivo eliminado"),
   ("security_block", "Bloqueo de seguridad"),
   ("snyk_scan", "Escaneo Snyk"),
   ("commit_blocked", "Commit bloqueado"),
   ("secret_detected", "Secreto detectado"),
   ("config_changed", "Configuración modificada"),
   ("webhook_sent", "Webhook enviado"),
   ("user_action", "Acción de usuario")]

/-- `_get_previous_hash`: the last line's `entry_hash`, or the genesis
sentinel on an empty log. -/
def getPreviousHash (log : List AuditEntry) : String :=
  match log.getLast? with
  | none => "GENESIS"
  | some e => e.entry_hash

/-- The ambient inputs of one `AuditTrail.log` call: its four
arguments plus the wall clock and hostname read inside. -/
structure LogRequest where
  event_type : String
  details : String
  actor : String
  severity : String
  timestamp : String
  hostname : String
deriving DecidableEq

/-- `AuditTrail.log`: reads the previous hash and the sequence number
(line count plus one), assembles the content, hashes it, appends the
line, and returns the entry. -/
def auditLog (chash : String → String) (ser : EntryContent → String)
    (log : List AuditEntry) (r : LogRequest) : List AuditEntry × AuditEntry :=
  let previous_hash := getPreviousHash log
  let content : EntryContent :=
    { timestamp := r.timestamp
      event_type := r.event_type
      event_description := dictGet auditEventTypes r.event_type r.event_type
      actor := r.actor
      severity := r.severity
      details := r.details
      previous_hash := previous_hash
      hostname := r.hostname
      sequence := log.length + 1 }
  let entry_data := ser content
  let entry : AuditEntry :=
    ⟨content, chash entry_data, chash (previous_hash ++ ":" ++ entry_data)⟩
  (log ++ [entry], entry)

/-- A sequence of `AuditTrail.log` calls starting from an empty log. -/
def appendAll (chash : String → String) (ser : EntryContent → String)
    (reqs : List LogRequest) : List AuditEntry :=
  reqs.foldl (fun log r => (auditLog chash ser log r).1) []

/-- The two error shapes `verify_integrity` reports, each string
carrying the one-based entry index. -/
inductive AuditErr where
  | chainMismatch
  | hashCorrupt
deriving DecidableEq

/-- The verification loop of `verify_integrity`: walk the entries with
the running `previous_hash` (genesis at the start), reporting a chain
mismatch and then a corrupted entry hash per entry; the stored
`entry_hash` (even when wrong) becomes the next link, and an empty
stored hash skips the hash comparison as in the source's truthiness
test. -/
def verifyGo (chash : String → String) (ser : EntryContent → String) :
    List AuditEntry → String → Nat → List (Nat × AuditErr)
  | [], _, _ => []
  | e :: rest, prev, i =>
      (if e.content.previous_hash != prev then [(i + 1, AuditErr.chainMismatch)] else []) ++
      (if e.entry_hash != "" && e.entry_hash != chash (ser e.content) then
          [(i + 1, AuditErr.hashCorrupt)]
       else []) ++
      verifyGo chash ser rest e.entry_hash (i + 1)

/-- Result of `verify_integrity`. -/
structure VerifyResult where
  valid : Bool
  entries : Nat
  errors : List (Nat × AuditErr)
deriving DecidableEq

/-- `AuditTrail.verify_integrity`: replay the file, recomputing each
entry's hash and the chain linkage. -/
def verify_integrity (chash : String → String) (ser : EntryContent → String)
    (log : List AuditEntry) : VerifyResult :=
  if log.isEmpty then ⟨true, 0, []⟩
  else
    let errors := verifyGo chash ser log "GENESIS" 0
    ⟨errors.isEmpty, log.length, errors⟩

/-- The hash-chain shape the design document claims for a log built by
appends: the first entry links to the genesis sentinel, every later
entry links to its predecessor's stored hash, and every entry's stored
hash is the content hash of the entry without its hash fields. -/
def chainWellFormed (chash : String → String) (ser : EntryContent → String) :
    List AuditEntry → String → Bool
  | [], _ => true
  | e :: rest, prev =>
      e.content.previous_hash == prev &&
      e.entry_hash == chash (ser e.content) &&
      chainWellFormed chash ser rest e.entry_hash

/-!
## scripts/event_dispatcher.py

The SHA-256 digest truncated to 16 hex characters used by
`generate_idempotency_key` is abstracted as the parameter `sha16`; the
network is an oracle `net : List Bool` giving the outcome of each
successive HTTP POST (2xx response = `true`, any other status or a
connection error = `false`).  The durable state the dispatcher touches
(`logs/idempotency_keys.json`, `logs/queue.jsonl`, `logs/events.jsonl`)
is one `DState`.  `emit` is modelled in synchronous mode
(`async_mode=False`); asynchronous mode runs the identical
`_send_with_retry` on a background thread after the same validation,
configuration and idempotency checks.
-/

/-- The `CRITICAL_EVENTS` vocabulary with its descriptions. -/
def CRITICAL_EVENTS : Dict :=
  [("PLAN_VALIDATED", "Plan generado y validado exitosamente"),
   ("EXECUTION_ERROR", "Error durante la ejecucion del plan"),
   ("EVIDENCE_READY", "Evidencia lista para envio"),
   ("SECURITY_BREACH_ATTEMPT", "Intento de brecha de seguridad detectado"),
   ("HIGH_LATENCY_THRESHOLD", "Umbral de latencia excedido"),
   ("HITL_TIMEOUT", "Timeout esperando aprobacion humana"),
   ("HEARTBEAT", "Healthcheck ping")]

/-- `RETRY_DELAYS = [1, 5, 15]`. -/
def RETRY_DELAYS : List Nat := [1, 5, 15]

/-- `MAX_RETRIES = 3`. -/
def MAX_RETRIES : Nat := 3

/-- `EventDispatcher.is_event_valid`. -/
def is_event_valid (event_type : String) : Bool :=
  dictHas CRITICAL_EVENTS event_type

/-- `EventDispatcher.get_webhook_url`: the configured URL, unless it is
empty or an entry that starts with an underscore (a comment). -/
def get_webhook_url (config : Dict) (event_type : String) : Option String :=
  let url := dictGet config event_type ""
  if url != "" && !strStartsWith url "_" then some url else none

/-- `generate_idempotency_key`: digest of `"{event_type}:{plan_id}"`. -/
def generate_idempotency_key (sha16 : String → String)
    (event_type plan_id : String) : String :=
  sha16 (event_type ++ ":" ++ plan_id)

/-- `EventDispatcher.check_idempotency`: no key for an empty plan id;
otherwise the key and whether it is already recorded. -/
def check_idempotency (sha16 : String → String) (keys : Dict)
    (event_type plan_id : String) : Bool × Option String :=
  if plan_id == "" then (false, none)
  else
    let k := generate_idempotency_key sha16 event_type plan_id
    (dictHas keys k, some k)

/-- The JSON body `full_payload` that `emit` builds and `_send_webhook`
posts. -/
structure Envelope where
  event_type : String
  event_description : String
  timestamp : String
  idempotency_key : Option String
  system_context : Dict
  payload : Dict
deriving DecidableEq

/-- One line of `logs/events.jsonl` as written by `log_event` (the
inner payload's plan id and idempotency key, which `log_event` reads
from the inner dict). -/
structure EventLogEntry where
  timestamp : String
  event_type : String
  success : Bool
  error : Option String
  plan_id : Option String
  idempotency_key : Option String
deriving DecidableEq

/-- One line of `logs/queue.jsonl` as written by `queue_event`. -/
structure QEntry where
  queued_at : String
  event_type : String
  payload : Envelope
  status : String
deriving DecidableEq

/-- The dispatcher's durable files: recorded idempotency keys, the
local queue, and the event log. -/
structure DState where
  keys : Dict
  queue : List QEntry
  events : List EventLogEntry
deriving DecidableEq

/-- The `log_event` entry for one attempt on `env`. -/
def mkEventLogEntry (now : String) (event_type : String) (env : Envelope)
    (success : Bool) (error : Option String) : EventLogEntry :=
  { timestamp := now
    event_type := event_type
    success := success
    error := error
    plan_id := (env.payload.find? (fun kv => kv.1 == "plan_id")).map (fun kv => kv.2)
    idempotency_key :=
      (env.payload.find? (fun kv => kv.1 == "idempotency_key")).map (fun kv => kv.2) }

/-- `EventDispatcher._send_webhook`: one POST whose outcome is the head
of the network oracle; on a 2xx it records the idempotency key (when
truthy) and logs success, otherwise it logs the failure. -/
def send_webhook (now : String) (st : DState) (net : List Bool)
    (env : Envelope) (event_type : String) (idem : Option String) :
    Bool × DState × List Bool :=
  let outcome := net.headD false
  let net' := net.tail
  if outcome then
    let keys' :=
      match idem with
      | some k => if k != "" then dictSet st.keys k now else st.keys
      | none => st.keys
    (true,
     { st with keys := keys',
               events := st.events ++ [mkEventLogEntry now event_type env true none] },
     net')
  else
    (false,
     { st with events := st.events ++ [mkEventLogEntry now event_type env false (some "error")] },
     net')

/-- What one `_send_with_retry` (or `emit`) call returns and leaves
behind: the boolean result, the new durable state, the unconsumed
network oracle, the backoff sleeps performed, and how many POST
attempts were made. -/
structure EmitOut where
  ok : Bool
  st : DState
  net : List Bool
  sleeps : List Nat
  attempts : Nat
deriving DecidableEq

/-- `queue_event`: append the envelope to `logs/queue.jsonl` with
status `pending`. -/
def queue_event (now : String) (st : DState) (event_type : String)
    (env : Envelope) : DState :=
  { st with queue := st.queue ++ [⟨now, event_type, env, "pending"⟩] }

/-- The `for attempt in range(MAX_RETRIES)` loop of
`_send_with_retry`: `remaining` counts the attempts left, `i` the
zero-based attempt index; a backoff sleep of `RETRY_DELAYS[i]` follows
every failed attempt except the last, and exhaustion queues the
envelope. -/
def sendRetryGo (now : String) (env : Envelope) (event_type : String)
    (idem : Option String) :
    Nat → Nat → DState → List Bool → EmitOut
  | 0, _, st, net => ⟨false, queue_event now st event_type env, net, [], 0⟩
  | remaining + 1, i, st, net =>
      let r := send_webhook now st net env event_type idem
      if r.1 then ⟨true, r.2.1, r.2.2, [], 1⟩
      else
        let sl := if remaining > 0 then [RETRY_DELAYS.getD i 0] else []
        let rest := sendRetryGo now env event_type idem remaining (i + 1) r.2.1 r.2.2
        ⟨rest.ok, rest.st, rest.net, sl ++ rest.sleeps, rest.attempts + 1⟩

/-- `EventDispatcher._send_with_retry`. -/
def send_with_retry (now : String) (st : DState) (net : List Bool)
    (env : Envelope) (event_type : String) (idem : Option String) : EmitOut :=
  sendRetryGo now env event_type idem MAX_RETRIES 0 st net

/-- `EventDispatcher.emit` in synchronous mode: validate the event
type, resolve the webhook URL (an unconfigured URL drops the event),
check idempotency, build the envelope and deliver with retries. -/
def emit (sha16 : String → String) (config ctx : Dict) (now : String)
    (st : DState) (net : List Bool) (event_type : String) (payload : Dict)
    (force : Bool) : EmitOut :=
  if !is_event_valid event_type then ⟨false, st, net, [], 0⟩
  else
    match get_webhook_url config event_type with
    | none => ⟨false, st, net, [], 0⟩
    | some _url =>
        let plan_id := dictGet payload "plan_id" ""
        let c := check_idempotency sha16 st.keys event_type plan_id
        if c.1 && !force then ⟨false, st, net, [], 0⟩
        else
          let env : Envelope :=
            { event_type := event_type
              event_description := dictGet CRITICAL_EVENTS event_type ""
              timestamp := now
              idempotency_key := c.2
              system_context := ctx
              payload := payload }
          send_with_retry now st net env event_type c.2

/-!
## scripts/graceful_recovery.py
-/

/-- The `critical_errors` keyword list of `should_escalate_to_user`. -/
def criticalErrors : List String :=
  ["security", "unauthorized", "permission denied", "api key", "authentication"]

/-- `GracefulRecovery.should_escalate_to_user`: true iff the lowercased
error text contains one of the keywords; the agent id is not
consulted. -/
def should_escalate_to_user (agent_id error : String) : Bool :=
  let _ := agent_id
  criticalErrors.any (fun ce => strContains (strLower error) ce)

/-!
## scripts/orchestrator.py, phase_execute

`phase_execute` loads the plan and, for each step in the order the
`steps` array lists them, prints the step's id, action, target, HITL
flag and dependencies; it then announces simulation mode and returns
`True`.  The trace type below has constructors for the two effects the
design document expects of this phase — an approval re-check and an
action-handler invocation — so that their absence is expressible.
-/

/-- Observable effects of the execute phase. -/
inductive ExecEffect where
  | printStep (sid action target : Option String) (hitl : Bool)
      (deps : List String)
  | approvalCheck (pid sid : String)
  | invokeHandler (action target : String)
deriving DecidableEq

/-- `phase_execute`: reviews steps in listed order and succeeds
unconditionally; no approval is re-checked and no handler is
invoked. -/
def phase_execute (plan : Plan) : Bool × List ExecEffect :=
  (true,
   (plan.steps.getD []).map (fun s =>
     ExecEffect.printStep s.id s.action s.target s.hitl_required s.depends_on))

/-- Discriminator: the effect is a step printout. -/
def isPrintStep : ExecEffect → Bool
  | ExecEffect.printStep _ _ _ _ _ => true
  | _ => false

/-!
## Derived notions and concrete fixtures
-/

/-- The invariant the validator actually enforces: every `write_file`
or `delete_file` step has `hitl_required = true`. -/
def hitlInvariantCode (plan : Plan) : Bool :=
  (plan.steps.getD []).all (fun s =>
    match s.action with
    | some a => if a == "write_file" || a == "delete_file" then s.hitl_required else true
    | none => true)

/-- The hash a new entry must link to when appended after `log`, given
the link `prev` expected for the head of `log`. -/
def chainTail (log : List AuditEntry) (prev : String) : String :=
  match log.getLast? with
  | none => prev
  | some e => e.entry_hash

/-- Replace entry `n` (zero-based) of a log by the same entry with its
`previous_hash` field set to `v`; identity when the index is out of
range. -/
def tamperPrev (log : List AuditEntry) (n : Nat) (v : String) :
    List AuditEntry :=
  match log.get? n with
  | none => log
  | some e => log.set n { e with content := { e.content with previous_hash := v } }

/-- A structurally valid plan whose single step is a `git_commit`
without `hitl_required`. -/
def commitPlan : Plan :=
  { plan_id := some "PLAN-ABCD1234", hasVersion := true, hasCreatedAt := true,
    hasObjective := true,
    steps := some [⟨some "S01", some "git_commit", some "main", [], false, none⟩],
    hasPreFlight := true, hasVerification := true, hasEvidence := true }

/-- The scenario-B plan: one `write_file` step lacking
`hitl_required`. -/
def scenarioBPlan : Plan :=
  { plan_id := some "PLAN-00000001", hasVersion := true, hasCreatedAt := true,
    hasObjective := true,
    steps := some [⟨some "S01", some "write_file", some "src/app.py", [], false, none⟩],
    hasPreFlight := true, hasVerification := true, hasEvidence := true }

/-- A valid plan with a `write_file` step that does carry
`hitl_required`. -/
def okWritePlan : Plan :=
  { plan_id := some "PLAN-00000002", hasVersion := true, hasCreatedAt := true,
    hasObjective := true,
    steps := some [⟨some "S01", some "write_file", some "src/app.py", [], true, none⟩],
    hasPreFlight := true, hasVerification := true, hasEvidence := true }

/-- A plan whose listed order is the reverse of its dependency order
and whose first listed step requires HITL. -/
def execPlan : Plan :=
  { plan_id := some "PLAN-00000003", hasVersion := true, hasCreatedAt := true,
    hasObjective := true,
    steps := some
      [⟨some "S02", some "write_file", some "src/app.py", ["S01"], true, none⟩,
       ⟨some "S01", some "read_file", some "src/app.py", [], false, none⟩],
    hasPreFlight := true, hasVerification := true, hasEvidence := true }

/-- A concrete stand-in for the truncated SHA-256 digest. -/
def fixSha : String → String := fun s => "K" ++ s

/-- A webhook configuration with one endpoint. -/
def fixConfig : Dict := [("PLAN_VALIDATED", "http://n8n.local/hook")]

/-- A webhook configuration whose only entry is empty. -/
def fixConfigEmpty : Dict := [("EVIDENCE_READY", "")]

/-- A payload carrying a plan id. -/
def fixPayload : Dict := [("plan_id", "PLAN-TEST1234")]

/-- The dispatcher state with empty durable files. -/
def emptyDState : DState := ⟨[], [], []⟩

/-- A concrete stand-in for the audit content digest. -/
def fixChash : String → String := fun s => "H" ++ s

/-- A concrete stand-in for the sorted-key JSON serialisation of an
entry's content. -/
def fixSer : EntryContent → String := fun c =>
  c.timestamp ++ "|" ++ c.event_type ++ "|" ++ c.event_description ++ "|" ++
  c.actor ++ "|" ++ c.severity ++ "|" ++ c.details ++ "|" ++
  c.previous_hash ++ "|" ++ c.hostname ++ "|" ++ toString c.sequence

/-- The entry that one `AuditTrail.log` call appends after `log`. -/
def mkEntry (chash : String → String) (ser : EntryContent → String)
    (log : List AuditEntry) (r : LogRequest) : AuditEntry :=
  (auditLog chash ser log r).2

/-- Three audit append requests. -/
def fixReq1 : LogRequest := ⟨"plan_created", "d1", "system", "info", "t1", "host"⟩

/-- Second audit append request. -/
def fixReq2 : LogRequest := ⟨"plan_approved", "d2", "human", "info", "t2", "host"⟩

/-- Third audit append request. -/
def fixReq3 : LogRequest := ⟨"plan_executed", "d3", "system", "info", "t3", "host"⟩

/-!
## Helper lemmas
-/

theorem dictHas_dictSet_self (d : Dict) (k v : String) :
    dictHas (dictSet d k v) k = true := by
  induction d with
  | nil => simp [dictSet, dictHas]
  | cons kv rest ih =>
    simp only [dictSet]
    split
    · simp [dictHas, List.find?]
    · simpa [dictHas, List.find?, *] using ih

theorem approvalsSetInner_find (m : List (String × ApprovalRecord))
    (sid : String) (rec : ApprovalRecord) :
    ((approvalsSetInner m sid rec).find? (fun q => q.1 == sid)).map
      (fun q => q.2) = some rec := by
  induction m with
  | nil => simp [approvalsSetInner, List.find?]
  | cons q qs ih =>
    simp only [approvalsSetInner]
    split
    · next h => simp [List.find?, h]
    · next h => simpa [List.find?, h] using ih

theorem approvalsLookup_approvalsSet (a : Approvals) (pid sid : String)
    (rec : ApprovalRecord) :
    approvalsLookup (approvalsSet a pid sid rec) pid sid = some rec := by
  induction a with
  | nil => simp [approvalsSet, approvalsLookup, List.find?, approvalsSetInner]
  | cons p rest ih =>
    simp only [approvalsSet]
    split
    · next h =>
      simp [approvalsLookup, List.find?, h, approvalsSetInner_find]
    · next h =>
      simpa [approvalsLookup, List.find?, h] using ih

theorem mem_validateStepsGo_of_hitlMissing (steps : List Step) (i : Nat)
    (seen : List String) (s : Step) (a : String) (hs : s ∈ steps)
    (ha : s.action = some a) (haw : a = "write_file" ∨ a = "delete_file")
    (hh : s.hitl_required = false) :
    VErr.hitlMissing (s.id.getD "") a ∈ validateStepsGo steps i seen := by
  induction steps generalizing i seen with
  | nil => cases hs
  | cons t rest ih =>
    rcases List.mem_cons.mp hs with rfl | hmem
    · rcases haw with rfl | rfl <;>
        simp [validateStepsGo, ha, hh, List.mem_append]
    · simp only [validateStepsGo, List.mem_append]
      exact Or.inr (ih _ _ hmem)

theorem validate_steps_nil_of_success (plan : Plan)
    (h : (run_validation plan).success = true) : validate_steps plan = [] := by
  have herr : (validate_required_fields plan ++ validate_plan_id plan ++
      validate_steps plan ++ validate_dependencies plan ++
      validate_docker_mapping plan) = [] := by
    simpa [run_validation, List.isEmpty_iff] using h
  simp only [List.append_eq_nil] at herr
  exact herr.1.1.2

theorem validate_steps_eq_go (plan : Plan) (s : Step)
    (hs : s ∈ plan.steps.getD []) :
    validate_steps plan = validateStepsGo (plan.steps.getD []) 0 [] := by
  have hne : (plan.steps.getD []).isEmpty = false := by
    cases h' : plan.steps.getD [] with
    | nil => rw [h'] at hs; cases hs
    | cons _ _ => simp
  simp [validate_steps, hne]

theorem sendRetryGo_keys_of_ok (now : String) (env : Envelope) (et k : String)
    (hk : k ≠ "") :
    ∀ (remaining i : Nat) (st : DState) (net : List Bool),
      (sendRetryGo now env et (some k) remaining i st net).ok = true →
      dictHas (sendRetryGo now env et (some k) remaining i st net).st.keys k
        = true := by
  intro remaining
  induction remaining with
  | zero =>
    intro i st net h
    simp [sendRetryGo] at h
  | succ r ih =>
    intro i st net h
    have hkb : (k != "") = true := by simpa [bne] using hk
    cases ho : net.headD false with
    | true =>
      simp only [sendRetryGo, send_webhook, ho] at h ⊢
      simp [hkb, dictHas_dictSet_self]
    | false =>
      simp only [sendRetryGo, send_webhook, ho] at h ⊢
      exact ih _ _ _ h

theorem send_with_retry_keys_of_ok (now : String) (st : DState)
    (net : List Bool) (env : Envelope) (et k : String) (hk : k ≠ "")
    (h : (send_with_retry now st net env et (some k)).ok = true) :
    dictHas (send_with_retry now st net env et (some k)).st.keys k = true :=
  sendRetryGo_keys_of_ok now env et k hk MAX_RETRIES 0 st net h

theorem emit_not_duplicate_eq (sha16 : String → String) (config ctx : Dict)
    (now : String) (st : DState) (net : List Bool) (event_type : String)
    (payload : Dict) (u : String)
    (hv : is_event_valid event_type = true)
    (hu : get_webhook_url config event_type = some u)
    (hpid : (dictGet payload "plan_id" "" == "") = false)
    (hdup : dictHas st.keys
      (generate_idempotency_key sha16 event_type
        (dictGet payload "plan_id" "")) = false) :
    emit sha16 config ctx now st net event_type payload false =
      send_with_retry now st net
        ⟨event_type, dictGet CRITICAL_EVENTS event_type "", now,
         some (generate_idempotency_key sha16 event_type
           (dictGet payload "plan_id" "")), ctx, payload⟩
        event_type
        (some (generate_idempotency_key sha16 event_type
          (dictGet payload "plan_id" ""))) := by
  simp [emit, hv, hu, check_idempotency, hpid, hdup]

theorem emit_duplicate_eq (sha16 : String → String) (config ctx : Dict)
    (now : String) (st : DState) (net : List Bool) (event_type : String)
    (payload : Dict) (u : String)
    (hv : is_event_valid event_type = true)
    (hu : get_webhook_url config event_type = some u)
    (hpid : (dictGet payload "plan_id" "" == "") = false)
    (hdup : dictHas st.keys
      (generate_idempotency_key sha16 event_type
        (dictGet payload "plan_id" "")) = true) :
    emit sha16 config ctx now st net event_type payload false
      = ⟨false, st, net, [], 0⟩ := by
  simp [emit, hv, hu, check_idempotency, hpid, hdup]

theorem chainTail_cons (x : AuditEntry) (rest : List AuditEntry)
    (prev : String) :
    chainTail (x :: rest) prev = chainTail rest x.entry_hash := by
  cases rest <;> rfl

theorem verifyGo_nil_of_chainWF (chash : String → String)
    (ser : EntryContent → String) :
    ∀ (log : List AuditEntry) (prev : String) (i : Nat),
      chainWellFormed chash ser log prev = true →
      verifyGo chash ser log prev i = [] := by
  intro log
  induction log with
  | nil => intro prev i _; rfl
  | cons e rest ih =>
    intro prev i h
    simp only [chainWellFormed, Bool.and_eq_true] at h
    obtain ⟨⟨h1, h2⟩, h3⟩ := h
    have h1' : (e.content.previous_hash != prev) = false := by
      simp [bne, h1]
    have h2' : (e.entry_hash != chash (ser e.content)) = false := by
      simp [bne, h2]
    simp [verifyGo, h1', h2', ih _ _ h3]

theorem chainWellFormed_snoc (chash : String → String)
    (ser : EntryContent → String) :
    ∀ (xs : List AuditEntry) (e : AuditEntry) (prev : String),
      chainWellFormed chash ser (xs ++ [e]) prev =
        (chainWellFormed chash ser xs prev &&
         (e.content.previous_hash == chainTail xs prev) &&
         (e.entry_hash == chash (ser e.content))) := by
  intro xs
  induction xs with
  | nil =>
    intro e prev
    simp [chainWellFormed, chainTail]
  | cons x rest ih =>
    intro e prev
    simp [chainWellFormed, ih, chainTail_cons, Bool.and_assoc]

theorem chainWF_foldl_auditLog (chash : String → String)
    (ser : EntryContent → String) :
    ∀ (reqs : List LogRequest) (log : List AuditEntry),
      chainWellFormed chash ser log "GENESIS" = true →
      chainWellFormed chash ser
        (reqs.foldl (fun l r => (auditLog chash ser l r).1) log)
        "GENESIS" = true := by
  intro reqs
  induction reqs with
  | nil => intro log h; exact h
  | cons r rs ih =>
    intro log h
    apply ih
    show chainWellFormed chash ser (log ++ [mkEntry chash ser log r])
      "GENESIS" = true
    rw [chainWellFormed_snoc, h]
    have hprev : (mkEntry chash ser log r).content.previous_hash
        = chainTail log "GENESIS" := rfl
    have hhash : (mkEntry chash ser log r).entry_hash
        = chash (ser (mkEntry chash ser log r).content) := rfl
    simp [hprev, hhash]

theorem length_foldl_auditLog (chash : String → String)
    (ser : EntryContent → String) :
    ∀ (reqs : List LogRequest) (log : List AuditEntry),
      (reqs.foldl (fun l r => (auditLog chash ser l r).1) log).length
        = log.length + reqs.length := by
  intro reqs
  induction reqs with
  | nil => intro log; simp
  | cons r rs ih =>
    intro log
    show (rs.foldl (fun l r => (auditLog chash ser l r).1)
      (log ++ [mkEntry chash ser log r])).length = log.length + (rs.length + 1)
    rw [ih]
    simp
    omega

/-!
## Claims
-/

/-- C1 counterexample: a structurally valid plan whose only step is a
`git_commit` without `hitl_required` passes `run_validation`, so the
validator does not enforce the full mutating set
{write_file, delete_file, git_commit}. -/
theorem c1_counterexample :
    (run_validation commitPlan).success = true ∧
    hitlInvariantSpec commitPlan = false := by
  decide

/-- C1 amended: every plan accepted by the structural validator has
`hitl_required = true` on each `write_file` or `delete_file` step (the
validator does not check `git_commit`); and a plan containing a
`write_file` step lacking `hitl_required` fails validation with an
error carrying that step's id. -/
theorem c1_validator_hitl :
    (∀ plan : Plan, (run_validation plan).success = true →
      hitlInvariantCode plan = true) ∧
    (∀ (plan : Plan) (s : Step), s ∈ plan.steps.getD [] →
      s.action = some "write_file" → s.hitl_required = false →
      VErr.hitlMissing (s.id.getD "") "write_file" ∈ (run_validation plan).errors ∧
      (run_validation plan).success = false) := by
  constructor
  · intro plan h
    rw [hitlInvariantCode, List.all_eq_true]
    intro s hs
    cases hact : s.action with
    | none => simp
    | some a =>
      by_cases hw : a = "write_file" ∨ a = "delete_file"
      · have hwb : (a == "write_file" || a == "delete_file") = true := by
          rcases hw with rfl | rfl <;> simp
        simp only [hwb, if_true]
        by_contra hh
        have hh' : s.hitl_required = false := by
          cases hht : s.hitl_required with
          | true => exact absurd hht hh
          | false => rfl
        have hmem := mem_validateStepsGo_of_hitlMissing (plan.steps.getD [])
          0 [] s a hs hact hw hh'
        rw [← validate_steps_eq_go plan s hs,
            validate_steps_nil_of_success plan h] at hmem
        cases hmem
      · have hwb : (a == "write_file" || a == "delete_file") = false := by
          rcases hb : (a == "write_file" || a == "delete_file") with _ | _
          · rfl
          · exfalso
            apply hw
            rcases Bool.or_eq_true_iff.mp hb with h1 | h1
            · exact Or.inl (eq_of_beq h1)
            · exact Or.inr (eq_of_beq h1)
        simp [hwb]
  · intro plan s hs hact hh
    have hmem := mem_validateStepsGo_of_hitlMissing (plan.steps.getD [])
      0 [] s "write_file" hs hact (Or.inl rfl) hh
    rw [← validate_steps_eq_go plan s hs] at hmem
    have hmem' : VErr.hitlMissing (s.id.getD "") "write_file"
        ∈ (run_validation plan).errors := by
      simp only [run_validation, List.mem_append]
      exact Or.inl (Or.inl (Or.inr hmem))
    refine ⟨hmem', ?_⟩
    cases hsucc : (run_validation plan).success with
    | false => rfl
    | true =>
      exfalso
      have := validate_steps_nil_of_success plan hsucc
      rw [this] at hmem
      cases hmem

/-- C1 witness: a plan whose `write_file` step carries
`hitl_required` validates and satisfies the enforced invariant, and
the scenario-B plan fails with the error naming step S01. -/
theorem c1_witness :
    ((run_validation okWritePlan).success = true ∧
     hitlInvariantCode okWritePlan = true) ∧
    (VErr.hitlMissing "S01" "write_file" ∈ (run_validation scenarioBPlan).errors ∧
     (run_validation scenarioBPlan).success = false) :=
  ⟨⟨by decide, c1_validator_hitl.1 okWritePlan (by decide)⟩,
   c1_validator_hitl.2 scenarioBPlan
     ⟨some "S01", some "write_file", some "src/app.py", [], false, none⟩
     (by decide) (by decide) (by decide)⟩

/-- C2: after an `emit` whose delivery succeeded, a second `emit` of
the same (event type, plan id) pair with `force=false` is a no-op: it
returns false, makes no delivery attempt, performs no backoff sleep
and leaves the durable state untouched, because the deterministic
idempotency key of the pair was recorded by the first delivery. -/
theorem c2_second_emit_noop (sha16 : String → String) (config ctx : Dict)
    (now1 now2 : String) (st : DState) (net1 net2 : List Bool)
    (event_type : String) (payload : Dict)
    (hpid : dictGet payload "plan_id" "" ≠ "")
    (hkey : generate_idempotency_key sha16 event_type
      (dictGet payload "plan_id" "") ≠ "")
    (hok : (emit sha16 config ctx now1 st net1 event_type payload false).ok
      = true) :
    emit sha16 config ctx now2
        (emit sha16 config ctx now1 st net1 event_type payload false).st
        net2 event_type payload false
      = ⟨false,
         (emit sha16 config ctx now1 st net1 event_type payload false).st,
         net2, [], 0⟩ := by
  have hpidb : (dictGet payload "plan_id" "" == "") = false := by
    cases hb : dictGet payload "plan_id" "" == "" with
    | false => rfl
    | true => exact absurd (eq_of_beq hb) hpid
  by_cases hv : is_event_valid event_type = true
  · cases hu : get_webhook_url config event_type with
    | none => simp [emit, hv, hu] at hok
    | some u =>
      by_cases hdup : dictHas st.keys
          (generate_idempotency_key sha16 event_type
            (dictGet payload "plan_id" "")) = true
      · rw [emit_duplicate_eq sha16 config ctx now1 st net1 event_type
            payload u hv hu hpidb hdup] at hok
        cases hok
      · have hdup' : dictHas st.keys
            (generate_idempotency_key sha16 event_type
              (dictGet payload "plan_id" "")) = false := by
          cases hb : dictHas st.keys
              (generate_idempotency_key sha16 event_type
                (dictGet payload "plan_id" "")) with
          | false => rfl
          | true => exact absurd hb hdup
        rw [emit_not_duplicate_eq sha16 config ctx now1 st net1 event_type
            payload u hv hu hpidb hdup'] at hok ⊢
        have hkeys := send_with_retry_keys_of_ok now1 st net1 _ event_type _
          hkey hok
        exact emit_duplicate_eq sha16 config ctx now2 _ net2 event_type
          payload u hv hu hpidb hkeys
  · have hv' : is_event_valid event_type = false := by
      cases hb : is_event_valid event_type with
      | false => rfl
      | true => exact absurd hb hv
    simp [emit, hv'] at hok

/-- C2 witness: two emissions of PLAN_VALIDATED for the same plan id;
the first delivers on its only network attempt, the second is a no-op
with the state unchanged. -/
theorem c2_witness :
    (emit fixSha fixConfig [] "t0" emptyDState [true] "PLAN_VALIDATED"
      fixPayload false).ok = true ∧
    emit fixSha fixConfig [] "t1"
        (emit fixSha fixConfig [] "t0" emptyDState [true] "PLAN_VALIDATED"
          fixPayload false).st
        [true, true] "PLAN_VALIDATED" fixPayload false
      = ⟨false,
         (emit fixSha fixConfig [] "t0" emptyDState [true] "PLAN_VALIDATED"
           fixPayload false).st,
         [true, true], [], 0⟩ :=
  ⟨by decide,
   c2_second_emit_noop fixSha fixConfig [] "t0" "t1" emptyDState [true]
     [true, true] "PLAN_VALIDATED" fixPayload (by decide) (by decide)
     (by decide)⟩

/-- C5 counterexample: with every attempt failing, the synchronous
emit performs exactly three attempts but only two backoff waits, 1s
and 5s — the configured 15s delay of RETRY_DELAYS never occurs. -/
theorem c5_counterexample :
    (emit fixSha fixConfig [] "t0" emptyDState [false, false, false]
      "PLAN_VALIDATED" fixPayload false).attempts = 3 ∧
    (emit fixSha fixConfig [] "t0" emptyDState [false, false, false]
      "PLAN_VALIDATED" fixPayload false).sleeps = [1, 5] ∧
    15 ∈ RETRY_DELAYS ∧
    15 ∉ (emit fixSha fixConfig [] "t0" emptyDState [false, false, false]
      "PLAN_VALIDATED" fixPayload false).sleeps := by
  decide

/-- C5 amended: when every delivery attempt fails, a synchronous emit
makes exactly three HTTP attempts with backoff waits of 1s and 5s
between consecutive attempts (no wait follows the final attempt, so
the configured 15s delay is unused), then appends the envelope to the
durable queue and records no idempotency key. -/
theorem c5_exhausted_retries_queue (sha16 : String → String)
    (config ctx : Dict) (now : String) (st : DState) (net : List Bool)
    (event_type : String) (payload : Dict) (u : String)
    (hv : is_event_valid event_type = true)
    (hu : get_webhook_url config event_type = some u)
    (hpid : (dictGet payload "plan_id" "" == "") = false)
    (hdup : dictHas st.keys
      (generate_idempotency_key sha16 event_type
        (dictGet payload "plan_id" "")) = false)
    (hnet : ∀ b ∈ net, b = false) :
    (emit sha16 config ctx now st net event_type payload false).ok = false ∧
    (emit sha16 config ctx now st net event_type payload false).attempts = 3 ∧
    (emit sha16 config ctx now st net event_type payload false).sleeps
      = [1, 5] ∧
    (emit sha16 config ctx now st net event_type payload false).st.keys
      = st.keys ∧
    (emit sha16 config ctx now st net event_type payload false).st.queue
      = st.queue ++
        [⟨now, event_type,
          ⟨event_type, dictGet CRITICAL_EVENTS event_type "", now,
           some (generate_idempotency_key sha16 event_type
             (dictGet payload "plan_id" "")), ctx, payload⟩, "pending"⟩] ∧
    dictHas (emit sha16 config ctx now st net event_type payload false).st.keys
      (generate_idempotency_key sha16 event_type
        (dictGet payload "plan_id" "")) = false := by
  rw [emit_not_duplicate_eq sha16 config ctx now st net event_type payload u
    hv hu hpid hdup]
  rcases net with _ | ⟨b1, net⟩
  · simp [send_with_retry, MAX_RETRIES, sendRetryGo, send_webhook,
      queue_event, RETRY_DELAYS, hdup]
  · have hb1 : b1 = false := hnet b1 (by simp)
    subst hb1
    rcases net with _ | ⟨b2, net⟩
    · simp [send_with_retry, MAX_RETRIES, sendRetryGo, send_webhook,
        queue_event, RETRY_DELAYS, hdup]
    · have hb2 : b2 = false := hnet b2 (by simp)
      subst hb2
      rcases net with _ | ⟨b3, net⟩
      · simp [send_with_retry, MAX_RETRIES, sendRetryGo, send_webhook,
          queue_event, RETRY_DELAYS, hdup]
      · have hb3 : b3 = false := hnet b3 (by simp)
        subst hb3
        simp [send_with_retry, MAX_RETRIES, sendRetryGo, send_webhook,
          queue_event, RETRY_DELAYS, hdup]

/-- C5 witness: a concrete all-failing network run ends with the
envelope queued and no idempotency key recorded. -/
theorem c5_witness :
    (∀ b ∈ ([false, false, false] : List Bool), b = false) ∧
    ((emit fixSha fixConfig [] "t0" emptyDState [false, false, false]
       "PLAN_VALIDATED" fixPayload false).ok = false ∧
     (emit fixSha fixConfig [] "t0" emptyDState [false, false, false]
       "PLAN_VALIDATED" fixPayload false).attempts = 3 ∧
     (emit fixSha fixConfig [] "t0" emptyDState [false, false, false]
       "PLAN_VALIDATED" fixPayload false).sleeps = [1, 5] ∧
     (emit fixSha fixConfig [] "t0" emptyDState [false, false, false]
       "PLAN_VALIDATED" fixPayload false).st.keys = emptyDState.keys ∧
     (emit fixSha fixConfig [] "t0" emptyDState [false, false, false]
       "PLAN_VALIDATED" fixPayload false).st.queue
       = emptyDState.queue ++
         [⟨"t0", "PLAN_VALIDATED",
           ⟨"PLAN_VALIDATED", dictGet CRITICAL_EVENTS "PLAN_VALIDATED" "",
            "t0",
            some (generate_idempotency_key fixSha "PLAN_VALIDATED"
              (dictGet fixPayload "plan_id" "")), [], fixPayload⟩,
           "pending"⟩] ∧
     dictHas (emit fixSha fixConfig [] "t0" emptyDState [false, false, false]
         "PLAN_VALIDATED" fixPayload false).st.keys
       (generate_idempotency_key fixSha "PLAN_VALIDATED"
         (dictGet fixPayload "plan_id" "")) = false) :=
  ⟨by decide,
   c5_exhausted_retries_queue fixSha fixConfig [] "t0" emptyDState
     [false, false, false] "PLAN_VALIDATED" fixPayload
     "http://n8n.local/hook" (by decide) (by decide) (by decide) (by decide)
     (by decide)⟩

/-- C3: a log produced solely by `AuditTrail.log` appends from an
empty log verifies with `valid = true` and an entry count equal to the
number of appends, and it is hash-chained: the first entry links to
the genesis sentinel, every later entry's `previous_hash` equals the
preceding entry's `entry_hash`, and every `entry_hash` is the content
hash of the entry without its own hash fields — for any content hash
and serialisation. -/
theorem c3_audit_chain (chash : String → String)
    (ser : EntryContent → String) (reqs : List LogRequest) :
    (verify_integrity chash ser (appendAll chash ser reqs)).valid = true ∧
    (verify_integrity chash ser (appendAll chash ser reqs)).entries
      = reqs.length ∧
    chainWellFormed chash ser (appendAll chash ser reqs) "GENESIS" = true := by
  have hwf : chainWellFormed chash ser (appendAll chash ser reqs) "GENESIS"
      = true :=
    chainWF_foldl_auditLog chash ser reqs [] rfl
  have hlen : (appendAll chash ser reqs).length = reqs.length := by
    simpa using length_foldl_auditLog chash ser reqs []
  refine ⟨?_, ?_, hwf⟩
  · by_cases he : (appendAll chash ser reqs).isEmpty = true
    · simp [verify_integrity, he]
    · have he' : (appendAll chash ser reqs).isEmpty = false := by
        cases hb : (appendAll chash ser reqs).isEmpty with
        | false => rfl
        | true => exact absurd hb he
      simp [verify_integrity, he',
        verifyGo_nil_of_chainWF chash ser _ _ _ hwf]
  · by_cases he : (appendAll chash ser reqs).isEmpty = true
    · have hnil : appendAll chash ser reqs = [] := List.isEmpty_iff.mp he
      rw [hnil] at hlen
      simp [verify_integrity, he, ← hlen]
    · have he' : (appendAll chash ser reqs).isEmpty = false := by
        cases hb : (appendAll chash ser reqs).isEmpty with
        | false => rfl
        | true => exact absurd hb he
      simp [verify_integrity, he', hlen]

/-- C4: after three appends, setting entry 2's `previous_hash` to any
different value makes `verify_integrity` return `valid = false` with
the first reported error at entry 2 — and every reported error is at
entry 2, none at entry 3. -/
theorem c4_tamper_entry2 (chash : String → String)
    (ser : EntryContent → String) (q1 q2 q3 : LogRequest) (v : String)
    (hv : some v ≠ ((appendAll chash ser [q1, q2, q3]).get? 1).map
      (fun e => e.content.previous_hash)) :
    (verify_integrity chash ser
      (tamperPrev (appendAll chash ser [q1, q2, q3]) 1 v)).valid = false ∧
    (verify_integrity chash ser
        (tamperPrev (appendAll chash ser [q1, q2, q3]) 1 v)).errors.head?
      = some (2, AuditErr.chainMismatch) ∧
    ∀ p ∈ (verify_integrity chash ser
        (tamperPrev (appendAll chash ser [q1, q2, q3]) 1 v)).errors,
      p.1 = 2 := by
  obtain ⟨e1, e2, e3, hlog, hp1, hp2, hp3, hh1, hh2, hh3⟩ :
      ∃ e1 e2 e3, appendAll chash ser [q1, q2, q3] = [e1, e2, e3] ∧
        e1.content.previous_hash = "GENESIS" ∧
        e2.content.previous_hash = e1.entry_hash ∧
        e3.content.previous_hash = e2.entry_hash ∧
        e1.entry_hash = chash (ser e1.content) ∧
        e2.entry_hash = chash (ser e2.content) ∧
        e3.entry_hash = chash (ser e3.content) :=
    ⟨_, _, _, rfl, rfl, rfl, rfl, rfl, rfl, rfl⟩
  rw [hlog] at hv ⊢
  have hv' : v ≠ e1.entry_hash := by
    rw [← hp2]
    intro hcontr
    exact hv (by simp [List.get?, hcontr])
  have htam : tamperPrev [e1, e2, e3] 1 v
      = [e1, { e2 with content := { e2.content with previous_hash := v } },
         e3] := rfl
  rw [htam]
  have c1a : (e1.content.previous_hash != "GENESIS") = false := by
    simp [hp1]
  have c1b : (e1.entry_hash != "" && e1.entry_hash != chash (ser e1.content))
      = false := by
    simp [bne, hh1]
  have c2a : (({ e2 with content :=
      { e2.content with previous_hash := v } }).content.previous_hash
        != e1.entry_hash) = true := by
    simpa [bne] using hv'
  have c3a : (e3.content.previous_hash != e2.entry_hash) = false := by
    simp [hp3]
  have c3b : (e3.entry_hash != "" && e3.entry_hash != chash (ser e3.content))
      = false := by
    simp [bne, hh3]
  refine ⟨?_, ?_, ?_⟩
  · simp [verify_integrity, verifyGo, c1a, c1b, c2a, c3a, c3b]
  · simp [verify_integrity, verifyGo, c1a, c1b, c2a, c3a, c3b]
  · intro p hp
    simp [verify_integrity, verifyGo, c1a, c1b, c2a, c3a, c3b] at hp
    rcases hp with rfl | ⟨-, rfl⟩ <;> rfl

/-- C4 witness: tampering entry 2 of a concrete three-entry log with
the value EVIL is reported at entry 2 and nowhere else. -/
theorem c4_witness :
    (some "EVIL" ≠ ((appendAll fixChash fixSer [fixReq1, fixReq2, fixReq3]).get? 1).map
      (fun e => e.content.previous_hash)) ∧
    ((verify_integrity fixChash fixSer
       (tamperPrev (appendAll fixChash fixSer [fixReq1, fixReq2, fixReq3])
         1 "EVIL")).valid = false ∧
     (verify_integrity fixChash fixSer
         (tamperPrev (appendAll fixChash fixSer [fixReq1, fixReq2, fixReq3])
           1 "EVIL")).errors.head?
       = some (2, AuditErr.chainMismatch) ∧
     ∀ p ∈ (verify_integrity fixChash fixSer
         (tamperPrev (appendAll fixChash fixSer [fixReq1, fixReq2, fixReq3])
           1 "EVIL")).errors,
       p.1 = 2) :=
  ⟨by decide,
   c4_tamper_entry2 fixChash fixSer fixReq1 fixReq2 fixReq3 "EVIL"
     (by decide)⟩

/-- C6: `check_step_approval` returns false for any approval record
whose `approved_at` timestamp is more than 24 hours (86400 seconds)
before the current time. -/
theorem c6_approval_expires (now : Int) (a : Approvals) (pid sid : String)
    (rec : ApprovalRecord) (t : Int)
    (hrec : approvalsLookup a pid sid = some rec)
    (hat : rec.approved_at = some t)
    (hexp : now - t > 86400) :
    check_step_approval now a pid sid = false := by
  simp only [check_step_approval, hrec, hat]
  rw [if_pos hexp]

/-- C6 witness: an approval recorded 25 hours (90000 seconds) ago is
treated as not approved. -/
theorem c6_witness :
    (90000 : Int) - 0 > 86400 ∧
    check_step_approval 90000 (approve_step [] "PLAN-AAAAAAAA" "S01" "alice" 0)
      "PLAN-AAAAAAAA" "S01" = false :=
  ⟨by decide,
   c6_approval_expires 90000 (approve_step [] "PLAN-AAAAAAAA" "S01" "alice" 0)
     "PLAN-AAAAAAAA" "S01" ⟨true, some 0, some "alice", none, none⟩ 0
     (by decide) (by decide) (by decide)⟩

/-- C7 counterexample: a second `approve_step` call for the same
(plan id, step id) pair changes the stored actor and timestamp, so an
existing ApprovalRecord is not read-only. -/
theorem c7_counterexample :
    approvalsLookup (approve_step [] "PLAN-AAAAAAAA" "S01" "alice" 1000)
      "PLAN-AAAAAAAA" "S01" = some ⟨true, some 1000, some "alice", none, none⟩ ∧
    approvalsLookup
      (approve_step (approve_step [] "PLAN-AAAAAAAA" "S01" "alice" 1000)
        "PLAN-AAAAAAAA" "S01" "bob" 2000)
      "PLAN-AAAAAAAA" "S01" = some ⟨true, some 2000, some "bob", none, none⟩ := by
  decide

/-- C7 amended: `approve_step` and `reject_step` overwrite the record
for the pair — after any call the store holds exactly the new
decision, actor and timestamp (last writer wins). -/
theorem c7_last_write_wins (a : Approvals) (pid sid user reason : String)
    (now now2 : Int) :
    approvalsLookup (approve_step a pid sid user now) pid sid
      = some ⟨true, some now, some user, none, none⟩ ∧
    approvalsLookup (reject_step a pid sid reason now2) pid sid
      = some ⟨false, none, none, some now2, some reason⟩ :=
  ⟨approvalsLookup_approvalsSet a pid sid _,
   approvalsLookup_approvalsSet a pid sid _⟩

/-- C8 counterexample: on a plan whose first listed step requires HITL
and depends on the later-listed step, the execute phase still returns
success with a trace of bare step printouts in listed order — no
approval re-check and no handler invocation occur. -/
theorem c8_counterexample :
    (execPlan.steps.getD []).any (fun s => s.hitl_required) = true ∧
    phase_execute execPlan =
      (true,
       [ExecEffect.printStep (some "S02") (some "write_file")
          (some "src/app.py") true ["S01"],
        ExecEffect.printStep (some "S01") (some "read_file")
          (some "src/app.py") false []]) := by
  decide

/-- C8 amended: the execute phase walks the steps in their listed
order, printing each step's id, action, target, HITL flag and
dependencies; every effect in its trace is a printout (no approval
re-check, no action-handler invocation) and the phase succeeds
unconditionally. -/
theorem c8_execute_simulates (plan : Plan) :
    (phase_execute plan).1 = true ∧
    (phase_execute plan).2 =
      (plan.steps.getD []).map (fun s =>
        ExecEffect.printStep s.id s.action s.target s.hitl_required
          s.depends_on) ∧
    (phase_execute plan).2.all isPrintStep = true := by
  refine ⟨rfl, rfl, ?_⟩
  simp [phase_execute, List.all_eq_true, isPrintStep]

/-- C9 counterexample: error texts containing the keywords
`credentials` and `authorization` do not escalate. -/
theorem c9_counterexample :
    strContains "invalid credentials" "credentials" = true ∧
    should_escalate_to_user "architect" "invalid credentials" = false ∧
    strContains "authorization failed" "authorization" = true ∧
    should_escalate_to_user "tester" "authorization failed" = false := by
  decide

/-- C9 amended: `should_escalate_to_user` returns true exactly when
the lowercased error text contains one of `security`, `unauthorized`,
`permission denied`, `api key` or `authentication`; the agent id is
never consulted. -/
theorem c9_keyword_escalation (agent_id error : String) :
    should_escalate_to_user agent_id error =
      (strContains (strLower error) "security" ||
       strContains (strLower error) "unauthorized" ||
       strContains (strLower error) "permission denied" ||
       strContains (strLower error) "api key" ||
       strContains (strLower error) "authentication") ∧
    ∀ other : String,
      should_escalate_to_user agent_id error
        = should_escalate_to_user other error := by
  constructor
  · simp [should_escalate_to_user, criticalErrors, Bool.or_assoc]
  · intro other
    rfl

/-- C10: emitting a valid event whose webhook URL is unconfigured
returns false immediately: no delivery attempt, no queue write, no
idempotency record — the event is silently dropped. -/
theorem c10_unconfigured_webhook_drops (sha16 : String → String)
    (config ctx : Dict) (now : String) (st : DState) (net : List Bool)
    (event_type : String) (payload : Dict) (force : Bool)
    (hvalid : is_event_valid event_type = true)
    (hurl : get_webhook_url config event_type = none) :
    emit sha16 config ctx now st net event_type payload force
      = ⟨false, st, net, [], 0⟩ := by
  simp [emit, hvalid, hurl]

/-- C10 witness: a valid event type with an empty configured URL is
dropped with untouched state and no attempts. -/
theorem c10_witness :
    is_event_valid "EVIDENCE_READY" = true ∧
    get_webhook_url fixConfigEmpty "EVIDENCE_READY" = none ∧
    emit fixSha fixConfigEmpty [] "t0" emptyDState [true] "EVIDENCE_READY"
      fixPayload false = ⟨false, emptyDState, [true], [], 0⟩ :=
  ⟨by decide, by decide,
   c10_unconfigured_webhook_drops fixSha fixConfigEmpty [] "t0" emptyDState
     [true] "EVIDENCE_READY" fixPayload false (by decide) (by decide)⟩

end AGCCE
